import Mathlib

/-!
Verification development for the message-routing core of
electron-chrome-extensions: the extension router (listener registry and
handler dispatch), the runtime request/response correlator, the port
multiplexer, the service-worker lifecycle tracker, and the native
messaging host bridge.  Each definition is a shallow embedding of the
corresponding function in the repository source
(src/browser/router.ts as compiled in dist/cjs/index.js, and
src/browser/api/runtime.ts / native-messaging-host.ts).
-/

namespace ECE

/-! ## Generic association-list operations

JavaScript Map objects keyed by strings are modelled as association
lists with unique keys.  `lookupA` is Map.get, `setA` is Map.set and
`eraseA` is Map.delete. -/

/-- Finds the value stored for a key, as Map.get. -/
def lookupA {α : Type} : List (String × α) → String → Option α
  | [], _ => none
  | (k, v) :: rest, key => if k = key then some v else lookupA rest key

/-- Stores a value for a key, replacing any previous value, as Map.set. -/
def setA {α : Type} : List (String × α) → String → α → List (String × α)
  | [], key, v => [(key, v)]
  | (k, w) :: rest, key, v =>
    if k = key then (k, v) :: rest else (k, w) :: setA rest key v

/-- Removes a key, as Map.delete. -/
def eraseA {α : Type} (m : List (String × α)) (key : String) : List (String × α) :=
  m.filter (fun p => p.1 ≠ key)

/-! ## Listener registry (ExtensionRouter in dist/cjs/index.js)

An event listener is either a frame listener (a background page or other
WebContents host, identified here by a numeric host id) or a
service-worker listener.  This mirrors the two shapes built in
onAddListener: frame listeners carry the sending host, service-worker
listeners carry only the extension id. -/

inductive EvListener : Type
  | frame (extensionId : String) (host : Nat)
  | worker (extensionId : String)
deriving DecidableEq, Repr

/-- Reads the extension id of a listener. -/
def EvListener.extId : EvListener → String
  | .frame e _ => e
  | .worker e => e

/-- Embedding of eventListenerEquals: listeners are equal when the
extension ids agree, the types agree, and for two frame listeners the
hosts agree (two service-worker listeners of one extension are equal). -/
def eventListenerEquals : EvListener → EvListener → Bool
  | .frame e1 h1, .frame e2 h2 => e1 = e2 && h1 = h2
  | .worker e1, .worker e2 => e1 = e2
  | _, _ => false

/-- The listener registry: event name mapped to the ordered list of
listeners, mirroring the Map of listener arrays held by the router. -/
abbrev ListenerReg : Type := List (String × List EvListener)

/-- Embedding of ExtensionRouter.addListener.  The session extensions are
modelled as the list of registered extension ids; an unregistered
extension id throws (Except.error) before the registry is touched.
Otherwise an empty bucket is created if the event name is new, a
duplicate (by eventListenerEquals) leaves the bucket unchanged, and a
fresh listener is pushed at the end of the bucket. -/
def addListener (exts : List String) (reg : ListenerReg) (l : EvListener)
    (extensionId eventName : String) : Except String ListenerReg :=
  if exts.contains extensionId then
    let reg1 := match lookupA reg eventName with
      | some _ => reg
      | none => setA reg eventName []
    let bucket := (lookupA reg1 eventName).getD []
    if bucket.any (fun b => eventListenerEquals l b) then Except.ok reg1
    else Except.ok (setA reg1 eventName (bucket ++ [l]))
  else Except.error ("extension not registered in session: " ++ extensionId)

/-- Delivery targets of sendEvent: either a started service worker for an
extension, or a direct send to a frame host. -/
inductive Delivery : Type
  | toWorkerD (extensionId : String)
  | toHostD (host : Nat)
deriving DecidableEq, Repr

/-- Decides whether the sendEvent loop skips a listener because a target
extension id was given and does not match. -/
def skipListener (target : Option String) (l : EvListener) : Bool :=
  match target with
  | none => false
  | some t => t ≠ l.extId

/-- Embedding of ExtensionRouter.sendEvent.  The result is the list of
deliveries made, in order, together with the number of delivery-failure
log lines.  For a service-worker listener the router starts the worker
and sends, logging on failure and continuing (the rejection handler only
logs); for a frame listener whose host is destroyed the router logs and
returns from sendEvent, processing no further listeners. -/
def sendEvent (destroyed : Nat → Bool) (workerOk : String → Bool)
    (target : Option String) : List EvListener → List Delivery × Nat
  | [] => ([], 0)
  | l :: rest =>
    if skipListener target l then sendEvent destroyed workerOk target rest
    else
      match l with
      | .worker ext =>
        let r := sendEvent destroyed workerOk target rest
        if workerOk ext then (Delivery.toWorkerD ext :: r.1, r.2)
        else (r.1, r.2 + 1)
      | .frame _ h =>
        if destroyed h then ([], 1)
        else
          let r := sendEvent destroyed workerOk target rest
          (Delivery.toHostD h :: r.1, r.2)

/-- Decides whether a listener would be processed by the sendEvent loop
and hit the dead-frame-host branch: it is not skipped by the target
filter, it is a frame listener, and its host is destroyed. -/
def processedDeadFrame (destroyed : Nat → Bool) (target : Option String)
    (l : EvListener) : Bool :=
  !skipListener target l &&
    (match l with
     | .frame _ h => destroyed h
     | .worker _ => false)

/-! ## Request/response correlator (RuntimeAPI.sendMessage and the
runtime response handler in src/browser/api/runtime.ts)

The pendingResponses map, the 30-second timer and the promise of one
sendMessage call are modelled per message id.  An event is either the
one-shot timer firing, a response correlated with this message id, or a
response carrying a different message id (which the handler resolves
against a different map entry and is a no-op here). -/

inductive CorrEvent : Type
  | timerFire
  | response (r : Nat)
  | otherResponse
deriving DecidableEq, Repr

/-- State of one pending sendMessage call: whether the map entry is
present, whether the timer is scheduled and not yet cancelled or fired,
what the promise was resolved with (none while unresolved; some none is
resolve(undefined); some (some r) is resolve(r)), and whether the
promise was rejected. -/
structure CorrState : Type where
  pendingPresent : Bool
  timerActive : Bool
  resolvedWith : Option (Option Nat)
  rejected : Bool
deriving DecidableEq, Repr

/-- State at the end of the sendMessage body: entry stored, timer set,
promise unsettled. -/
def corrInit : CorrState :=
  { pendingPresent := true, timerActive := true, resolvedWith := none, rejected := false }

/-- Promise resolution: only the first resolve settles the promise. -/
def resolveOnce (s : CorrState) (v : Option Nat) : CorrState :=
  if s.resolvedWith.isSome then s else { s with resolvedWith := some v }

/-- Embedding of the two resolution paths.  The timeout callback deletes
the map entry and resolves with undefined; it can only run while the
timer is still scheduled.  The response handler looks the message id up
in the map and, when present, cancels the timer, deletes the entry and
resolves with the response; an unmatched id touches nothing. -/
def corrStep (s : CorrState) : CorrEvent → CorrState
  | .timerFire =>
    if s.timerActive then
      resolveOnce { s with pendingPresent := false, timerActive := false } none
    else s
  | .response r =>
    if s.pendingPresent then
      resolveOnce { s with pendingPresent := false, timerActive := false } (some r)
    else s
  | .otherResponse => s

/-- Runs a sequence of events against a fresh pending request. -/
def corrRun (es : List CorrEvent) : CorrState :=
  es.foldl corrStep corrInit

/-- The first event of the sequence that can settle this request: the
timer firing yields the undefined result, a correlated response yields
that response, and uncorrelated responses are passed over. -/
def firstSettling : List CorrEvent → Option (Option Nat)
  | [] => none
  | .timerFire :: _ => some none
  | .response r :: _ => some (some r)
  | .otherResponse :: rest => firstSettling rest

/-! ## Service-worker lifecycle tracker
(RuntimeAPI.setupServiceWorkerListeners in src/browser/api/runtime.ts) -/

inductive SWStatus : Type
  | starting
  | running
  | stopped
deriving DecidableEq, Repr

/-- One running-status-changed notification. -/
structure SWEventT : Type where
  versionId : Nat
  status : SWStatus
deriving DecidableEq, Repr

/-- What getWorkerFromVersionID reveals about a worker: whether its scope
starts with the chrome-extension protocol. -/
structure SWInfo : Type where
  scopeIsExtension : Bool
deriving DecidableEq, Repr

/-- Decides the guard combining getWorkerFromVersionID and the scope
check on its result. -/
def workerScopeOk (getWorker : Nat → Option SWInfo) (v : Nat) : Bool :=
  match getWorker v with
  | some w => w.scopeIsExtension
  | none => false

/-- State of the tracker: the registeredWorkers map (set of version ids)
and the log of listener installations performed, in order, one entry per
sw.ipc.on installation batch recording the version id it was bound to. -/
structure SWRegState : Type where
  registered : List Nat
  installs : List Nat
deriving DecidableEq, Repr

/-- Embedding of the running-status-changed handler: a stopped
notification deletes the version id from registeredWorkers; anything
other than starting is ignored; a starting notification for an already
registered version id is ignored; otherwise, when the worker resolves
and has an extension scope, the id is recorded and the IPC listeners are
installed for that worker instance. -/
def swStep (getWorker : Nat → Option SWInfo) (s : SWRegState) (e : SWEventT) : SWRegState :=
  match e.status with
  | .stopped => { s with registered := s.registered.filter (fun v => v ≠ e.versionId) }
  | .running => s
  | .starting =>
    if e.versionId ∈ s.registered then s
    else if workerScopeOk getWorker e.versionId then
      { registered := e.versionId :: s.registered, installs := s.installs ++ [e.versionId] }
    else s

/-- Runs a sequence of notifications from the empty tracker state. -/
def swRun (getWorker : Nat → Option SWInfo) (es : List SWEventT) : SWRegState :=
  es.foldl (swStep getWorker) { registered := [], installs := [] }

/-- Decides that no version id receives a starting notification after a
stopped notification: each worker instance id, once stopped, is dead and
a restarted worker reports a fresh instance id. -/
def noRevival : List SWEventT → Bool
  | [] => true
  | e :: rest =>
    (match e.status with
     | .stopped => rest.all (fun f => !(f.versionId = e.versionId && f.status = SWStatus.starting))
     | _ => true) && noRevival rest

/-- Number of times an event arriving over the IPC of the live worker
instance fires a registered listener: one per installation bound to that
instance (installations bound to dead instances died with them). -/
def deliveryCount (s : SWRegState) (liveId : Nat) : Nat :=
  s.installs.count liveId

/-! ## Port multiplexer (RuntimeAPI.connect and setupPortHandlers in
src/browser/api/runtime.ts)

A port record holds the owning extension id and the service worker
reference, which starts out unset and is filled in once
startWorkerForScope resolves.  The sender side is a renderer; only the
browser-side forwarding modelled here matters for the claims. -/

structure PortRec : Type where
  extensionId : String
  serviceWorker : Option Nat
deriving DecidableEq, Repr

/-- Operations on the port table, in the order the event loop runs them:
connectStore is the ports.set performed by connect before awaiting the
worker; swResolved is the update after startWorkerForScope resolves;
postMsg is an incoming crx-port-msg from the renderer. -/
inductive PortOp : Type
  | connectStore (portId extensionId : String)
  | swResolved (portId : String) (sw : Nat)
  | postMsg (portId : String) (msg : Nat)
deriving DecidableEq, Repr

/-- A message forwarded toward the responder side of a port. -/
inductive PortDelivery : Type
  | msgToWorker (sw : Nat) (portId : String) (msg : Nat)
  | msgToBg (bg : Nat) (portId : String) (msg : Nat)
deriving DecidableEq, Repr

/-- Embedding of one step of the port machinery.  bgPage models
findBackgroundPage for an extension id.  A crx-port-msg with an unknown
port id is ignored; with a known port it is forwarded immediately to the
service worker when the reference is set, otherwise to the background
page when one exists, otherwise nothing happens: there is no queue. -/
def portStep (bgPage : String → Option Nat) (s : List (String × PortRec)) :
    PortOp → List (String × PortRec) × List PortDelivery
  | .connectStore pid ext =>
    (setA s pid { extensionId := ext, serviceWorker := none }, [])
  | .swResolved pid sw =>
    match lookupA s pid with
    | some p => (setA s pid { p with serviceWorker := some sw }, [])
    | none => (s, [])
  | .postMsg pid m =>
    match lookupA s pid with
    | none => (s, [])
    | some p =>
      match p.serviceWorker with
      | some sw => (s, [PortDelivery.msgToWorker sw pid m])
      | none =>
        match bgPage p.extensionId with
        | some bg => (s, [PortDelivery.msgToBg bg pid m])
        | none => (s, [])

/-- Runs a sequence of port operations from the empty port table,
collecting all forwarded messages in order. -/
def portRun (bgPage : String → Option Nat) (ops : List PortOp) :
    List (String × PortRec) × List PortDelivery :=
  ops.foldl
    (fun acc op =>
      let r := portStep bgPage acc.1 op
      (r.1, acc.2 ++ r.2))
    ([], [])

/-- A disconnect notification forwarded to the responder side. -/
inductive DiscNotif : Type
  | discToWorker (sw : Nat) (portId : String)
  | discToBg (bg : Nat) (portId : String)
deriving DecidableEq, Repr

/-- Embedding of the crx-port-disconnect handler: an unknown port id is
ignored; a known port notifies the service worker when set, else the
background page when one exists, and the port record is deleted. -/
def portDisconnect (bgPage : String → Option Nat) (s : List (String × PortRec))
    (pid : String) : List (String × PortRec) × List DiscNotif :=
  match lookupA s pid with
  | none => (s, [])
  | some p =>
    let ns := match p.serviceWorker with
      | some sw => [DiscNotif.discToWorker sw pid]
      | none =>
        match bgPage p.extensionId with
        | some bg => [DiscNotif.discToBg bg pid]
        | none => []
    (eraseA s pid, ns)

/-! ## Native messaging host
(src/browser/api/lib/native-messaging-host.ts)

Payload strings are modelled as lists of Unicode code points.  The
JavaScript string length counts UTF-16 code units; the UTF-8 encoding
used by Buffer.write counts per-code-point byte lengths. -/

/-- Length of a string in UTF-16 code units, the value of the JavaScript
length property. -/
def jsLen (m : List Nat) : Nat :=
  (m.map (fun c => if c < 65536 then 1 else 2)).sum

/-- Length of the UTF-8 encoding of a string, in bytes. -/
def utf8Len (m : List Nat) : Nat :=
  (m.map (fun c =>
    if c < 128 then 1 else if c < 2048 then 2 else if c < 65536 then 3 else 4)).sum

/-- One frame written to the child process: the 4-byte little-endian
length field followed by the payload.  The code computes the length
field as message.length and allocates 4 + message.length bytes before
writing the message in UTF-8. -/
structure Frame : Type where
  lenField : Nat
  payload : List Nat
deriving DecidableEq, Repr

/-- Builds the frame exactly as NativeMessagingHost.send does:
buffer.writeUInt32LE(message.length, 0). -/
def mkFrame (m : List Nat) : Frame :=
  { lenField := jsLen m, payload := m }

/-- Result of the dynamic type checks performed on a parsed descriptor,
together with the fields used after validation. -/
structure RawConfig : Type where
  nameIsString : Bool
  descriptionIsString : Bool
  pathIsString : Bool
  typeIsStdio : Bool
  originsIsArray : Bool
  path : String
  allowed_origins : List String
deriving DecidableEq, Repr

/-- Embedding of isValidConfig. -/
def isValidConfig (c : RawConfig) : Bool :=
  c.nameIsString && c.descriptionIsString && c.pathIsString &&
    c.typeIsStdio && c.originsIsArray

/-- Embedding of readNativeMessagingHostConfig: walk the search paths in
order (none models a file that cannot be read or parsed) and return the
first structurally valid descriptor, or nothing. -/
def readNativeMessagingHostConfig : List (Option RawConfig) → Option RawConfig
  | [] => none
  | none :: rest => readNativeMessagingHostConfig rest
  | some c :: rest =>
    if isValidConfig c then some c else readNativeMessagingHostConfig rest

/-- State of one NativeMessagingHost connection. -/
structure NMState : Type where
  connected : Bool
  pending : List (List Nat)
  written : List Frame
  spawned : Bool
  destroyed : Bool
deriving DecidableEq, Repr

/-- Fresh connection: not connected, nothing queued, nothing written. -/
def nmInit : NMState :=
  { connected := false, pending := [], written := [], spawned := false, destroyed := false }

/-- Embedding of NativeMessagingHost.send: while not connected the
message is pushed onto the pending queue; once connected the framed
message is written to the child process stdin. -/
def nmSend (s : NMState) (m : List Nat) : NMState :=
  if s.connected then { s with written := s.written ++ [mkFrame m] }
  else { s with pending := s.pending ++ [m] }

/-- Embedding of NativeMessagingHost.destroy as far as the modelled state
goes: the connection is closed and the process, if any, is killed. -/
def nmDestroy (s : NMState) : NMState :=
  { s with connected := false, destroyed := true }

/-- Embedding of NativeMessagingHost.launch after the descriptor read
completes.  A missing descriptor, an allowed_origins list without the
requesting extension origin, or a path that is not a regular file each
destroy the connection without spawning; otherwise the process is
spawned, the connection becomes connected, and the pending queue is
flushed through send in order and cleared. -/
def nmFinishLaunch (s : NMState) (cfg : Option RawConfig) (origin : String)
    (isFile : String → Bool) : NMState :=
  match cfg with
  | none => nmDestroy s
  | some c =>
    if !(c.allowed_origins.contains origin) then nmDestroy s
    else if !(isFile c.path) then nmDestroy s
    else
      let s1 := { s with spawned := true, connected := true }
      let s2 := s1.pending.foldl nmSend s1
      { s2 with pending := [] }

/-- Embedding of the whole launch path: resolve the descriptor over the
search paths, then proceed as nmFinishLaunch. -/
def nmLaunch (reads : List (Option RawConfig)) (origin : String)
    (isFile : String → Bool) (s : NMState) : NMState :=
  nmFinishLaunch s (readNativeMessagingHostConfig reads) origin isFile

/-! ## Inbound dispatch (ExtensionRouter.onExtensionMessage and
ExtensionRouter.getHandler in dist/cjs/index.js)

A registered handler carries the three options normalized by handle()
and, abstractly, the outcome of awaiting its callback.  An extension
carries its id and the optional permissions array of its manifest. -/

structure RHandler : Type where
  allowRemote : Bool
  extensionContext : Bool
  permission : Option String
  callbackResult : Except String Nat
deriving Repr

structure RExtension : Type where
  id : String
  permissions : Option (List String)
deriving DecidableEq, Repr

/-- Errors thrown by onExtensionMessage, plus propagation of an error
thrown by the handler callback itself. -/
inductive RouterError : Type
  | unknownHandler (name : String)
  | remoteNotAllowed (name : String)
  | unknownCaller (name : String)
  | permissionDenied (name : String) (perm : String)
  | handlerThrew (msg : String)
deriving DecidableEq, Repr

/-- Looks an extension up among the session extensions by id, as
session.extensions.getExtension. -/
def findExtension (exts : List RExtension) (id : String) : Option RExtension :=
  exts.find? (fun e => e.id = id)

/-- Embedding of onExtensionMessage together with getHandler.
sameSession states whether the session resolved from the inbound event
is the session of this router; callerId is the extensionId argument
(none when absent or empty, both falsy).  The checks run in source
order: getHandler throws for an unknown name; a remote call to a handler
that does not allow remote calls throws; a handler requiring an
extension context throws when the caller id resolves to no registered
extension; a handler with a required permission throws when there is no
caller extension or its manifest permissions do not include the
permission; otherwise the awaited callback result or thrown error is
propagated. -/
def onExtensionMessage (handlers : List (String × RHandler)) (sameSession : Bool)
    (exts : List RExtension) (callerId : Option String) (name : String) :
    Except RouterError Nat :=
  match lookupA handlers name with
  | none => Except.error (RouterError.unknownHandler name)
  | some h =>
    if !sameSession && !h.allowRemote then
      Except.error (RouterError.remoteNotAllowed name)
    else
      let ext := callerId.bind (findExtension exts)
      if ext.isNone && h.extensionContext then
        Except.error (RouterError.unknownCaller name)
      else
        match h.permission with
        | some p =>
          let hasPerm := match ext with
            | some e => (e.permissions.getD []).contains p
            | none => false
          if !hasPerm then Except.error (RouterError.permissionDenied name p)
          else h.callbackResult.mapError RouterError.handlerThrew
        | none => h.callbackResult.mapError RouterError.handlerThrew

/-- Restatement of the dispatch contract from the specification, check
by check in the order the specification lists them: unknown handler
name; remote session with remote calls disallowed; required extension
context with an unresolvable caller; required permission missing from
the caller manifest permission set; otherwise invoke and propagate. -/
def onExtensionMessageSpec (handlers : List (String × RHandler)) (sameSession : Bool)
    (exts : List RExtension) (callerId : Option String) (name : String) :
    Except RouterError Nat :=
  match lookupA handlers name with
  | none => Except.error (RouterError.unknownHandler name)
  | some h =>
    if sameSession = false ∧ h.allowRemote = false then
      Except.error (RouterError.remoteNotAllowed name)
    else if h.extensionContext = true ∧ callerId.bind (findExtension exts) = none then
      Except.error (RouterError.unknownCaller name)
    else
      match h.permission with
      | some p =>
        if (match callerId.bind (findExtension exts) with
            | some e => (e.permissions.getD []).contains p
            | none => false) = false then
          Except.error (RouterError.permissionDenied name p)
        else h.callbackResult.mapError RouterError.handlerThrew
      | none => h.callbackResult.mapError RouterError.handlerThrew

/-! ## Auxiliary definitions used in the statements -/

/-- Registry invariant from the specification data model: within every
event-name bucket, no two listeners are equal under eventListenerEquals,
so the registry holds at most one listener per pair of event name and
endpoint identity. -/
def RegDistinct (reg : ListenerReg) : Prop :=
  ∀ p ∈ reg, p.2.Pairwise (fun a b => eventListenerEquals a b = false)

/-- Decides that every search path fails: the file is unreadable or the
parsed descriptor is structurally invalid. -/
def readsAllInvalid (reads : List (Option RawConfig)) : Bool :=
  reads.all (fun r =>
    match r with
    | none => true
    | some c => !isValidConfig c)

/-- A structurally valid descriptor allowing the abc extension origin. -/
def nmCfgOk : RawConfig :=
  { nameIsString := true, descriptionIsString := true, pathIsString := true,
    typeIsStdio := true, originsIsArray := true,
    path := "/usr/bin/helper", allowed_origins := ["chrome-extension://abc/"] }

/-- A descriptor whose name field is not a string, hence structurally
invalid. -/
def nmCfgBad : RawConfig :=
  { nameIsString := false, descriptionIsString := true, pathIsString := true,
    typeIsStdio := true, originsIsArray := true,
    path := "/usr/bin/helper", allowed_origins := ["chrome-extension://abc/"] }

/-- Restart trace from the specification scenario: instance 1 goes
through starting, running and stopped, then instance 2, a fresh id, goes
through starting and running. -/
def swRestartTrace : List SWEventT :=
  [{ versionId := 1, status := SWStatus.starting },
   { versionId := 1, status := SWStatus.running },
   { versionId := 1, status := SWStatus.stopped },
   { versionId := 2, status := SWStatus.starting },
   { versionId := 2, status := SWStatus.running }]

/-- Worker resolution in which every version id resolves to a worker
with an extension scope. -/
def swAllExtensionScopes : Nat → Option SWInfo :=
  fun _ => some { scopeIsExtension := true }

/-- Port operation trace for the race between an early message and the
resolution of the responder: connect stores port p1, a message arrives
before the worker resolves, then the worker resolves. -/
def portRaceTrace : List PortOp :=
  [PortOp.connectStore "p1" "ext", PortOp.postMsg "p1" 5,
   PortOp.swResolved "p1" 7]

/-! ## Library lemmas about the association-list operations -/

theorem lookupA_setA_self {α : Type} (m : List (String × α)) (key : String) (v : α) :
    lookupA (setA m key v) key = some v := by
  induction m with
  | nil => simp [setA, lookupA]
  | cons p rest ih =>
    obtain ⟨k, w⟩ := p
    by_cases h : k = key
    · simp [setA, h, lookupA]
    · simp [setA, h, lookupA, ih]

theorem lookupA_eraseA_self {α : Type} (m : List (String × α)) (key : String) :
    lookupA (eraseA m key) key = none := by
  induction m with
  | nil => simp [eraseA, lookupA]
  | cons p rest ih =>
    obtain ⟨k, w⟩ := p
    by_cases h : k = key
    · simpa [eraseA, h, lookupA] using ih
    · simpa [eraseA, h, lookupA] using ih

/-- Membership of values produced by setA: every entry either carries the
new value or was already present. -/
theorem mem_setA {α : Type} (m : List (String × α)) (key : String) (v : α) :
    ∀ p ∈ setA m key v, p.2 = v ∨ p ∈ m := by
  induction m with
  | nil =>
    intro p hp
    simp [setA] at hp
    subst hp
    exact Or.inl rfl
  | cons q rest ih =>
    obtain ⟨k, w⟩ := q
    intro p hp
    by_cases h : k = key
    · simp [setA, h] at hp
      rcases hp with hp | hp
      · subst hp; exact Or.inl rfl
      · exact Or.inr (List.mem_cons_of_mem _ hp)
    · simp only [setA, if_neg h, List.mem_cons] at hp
      rcases hp with hp | hp
      · subst hp; exact Or.inr (List.mem_cons_self _ _)
      · rcases ih p hp with h2 | h2
        · exact Or.inl h2
        · exact Or.inr (List.mem_cons_of_mem _ h2)

/-- Values found by lookupA come from entries of the list. -/
theorem lookupA_mem {α : Type} (m : List (String × α)) (key : String) (v : α)
    (h : lookupA m key = some v) : ∃ k, (k, v) ∈ m := by
  induction m with
  | nil => simp [lookupA] at h
  | cons p rest ih =>
    obtain ⟨k, w⟩ := p
    by_cases hk : k = key
    · subst hk
      simp [lookupA] at h
      subst h
      exact ⟨k, List.mem_cons_self _ _⟩
    · simp [lookupA, hk] at h
      rcases ih h with ⟨k2, h2⟩
      exact ⟨k2, List.mem_cons_of_mem _ h2⟩

/-! ## Lemmas about listener equality -/

theorem eventListenerEquals_refl (l : EvListener) : eventListenerEquals l l = true := by
  cases l <;> simp [eventListenerEquals]

theorem eventListenerEquals_symm (a b : EvListener)
    (h : eventListenerEquals a b = true) : eventListenerEquals b a = true := by
  cases a <;> cases b <;> simp_all [eventListenerEquals]

/-! ## C10: listeners only for extensions known to the session -/

/-- C10: addListener with an extension id that is not registered in the
session of the router throws and adds no listener; the check precedes
every registry mutation, so a listener can only ever be registered for
an extension known to the session. -/
theorem addListener_unknown_extension_throws
    (exts : List String) (reg : ListenerReg) (l : EvListener)
    (extensionId eventName : String)
    (h : exts.contains extensionId = false) :
    addListener exts reg l extensionId eventName =
      Except.error ("extension not registered in session: " ++ extensionId) := by
  unfold addListener
  rw [if_neg (by simpa using h)]

theorem addListener_unknown_extension_throws_witness :
    ([] : List String).contains "a" = false ∧
    addListener [] [] (EvListener.worker "a") "a" "ev" =
      Except.error ("extension not registered in session: " ++ "a") :=
  ⟨rfl, addListener_unknown_extension_throws [] [] (EvListener.worker "a") "a" "ev" rfl⟩

/-! ## C1: a dead frame listener aborts delivery to the rest -/

/-- C1 counterexample: with two frame listeners for event delivery where
the first host is destroyed and the second is live, sendEvent logs once
and delivers to nobody: the live second listener never receives the
event, refuting the claim that one dead listener never prevents delivery
to the remaining listeners. -/
theorem sendEvent_dead_listener_blocks_rest :
    (sendEvent (fun h => h == 1) (fun _ => true) none
        [EvListener.frame "a" 1, EvListener.frame "a" 2]) = ([], 1) ∧
    (fun h => h == 1) 2 = false ∧
    Delivery.toHostD 2 ∉
      (sendEvent (fun h => h == 1) (fun _ => true) none
        [EvListener.frame "a" 1, EvListener.frame "a" 2]).1 := by
  exact ⟨by decide, by decide, by decide⟩

/-- C1 amended: when the sendEvent loop reaches a frame listener whose
host endpoint has been destroyed (and which is not skipped by the target
filter), it logs the delivery failure and returns immediately: the
listeners before the dead one in the list have been delivered to exactly
as without it, and no listener after the dead one is processed at all. -/
theorem sendEvent_aborts_at_first_dead_frame_listener
    (destroyed : Nat → Bool) (workerOk : String → Bool) (target : Option String)
    (xs ys : List EvListener) (ext : String) (hostId : Nat)
    (h1 : xs.all (fun l => !processedDeadFrame destroyed target l) = true)
    (h2 : processedDeadFrame destroyed target (EvListener.frame ext hostId) = true) :
    sendEvent destroyed workerOk target (xs ++ EvListener.frame ext hostId :: ys) =
      ((sendEvent destroyed workerOk target xs).1,
       (sendEvent destroyed workerOk target xs).2 + 1) := by
  simp only [processedDeadFrame, Bool.and_eq_true, Bool.not_eq_true'] at h2
  obtain ⟨hskip, hdead⟩ := h2
  induction xs with
  | nil =>
    simp [sendEvent, hskip, hdead]
  | cons l rest ih =>
    simp only [List.all_cons, Bool.and_eq_true, Bool.not_eq_true'] at h1
    obtain ⟨hl, hrest⟩ := h1
    have ih2 := ih (by simpa [Bool.not_eq_true'] using hrest)
    by_cases hsk : skipListener target l = true
    · simpa [sendEvent, hsk] using ih2
    · have hskf : skipListener target l = false := by
        simpa [Bool.not_eq_true] using hsk
      cases l with
      | worker e =>
        cases hwo : workerOk e <;>
          simp [sendEvent, hskf, hwo, ih2]
      | frame e hh =>
        have hnotdead : destroyed hh = false := by
          simpa [processedDeadFrame, hskf] using hl
        simp [sendEvent, hskf, hnotdead, ih2]

theorem sendEvent_aborts_at_first_dead_frame_listener_witness :
    [EvListener.frame "a" 2].all
      (fun l => !processedDeadFrame (fun h => h == 1) none l) = true ∧
    processedDeadFrame (fun h => h == 1) none (EvListener.frame "a" 1) = true ∧
    sendEvent (fun h => h == 1) (fun _ => true) none
        ([EvListener.frame "a" 2] ++ EvListener.frame "a" 1 :: [EvListener.worker "b"]) =
      ((sendEvent (fun h => h == 1) (fun _ => true) none [EvListener.frame "a" 2]).1,
       (sendEvent (fun h => h == 1) (fun _ => true) none [EvListener.frame "a" 2]).2 + 1) :=
  ⟨by decide, by decide,
    sendEvent_aborts_at_first_dead_frame_listener (fun h => h == 1) (fun _ => true) none
      [EvListener.frame "a" 2] [EvListener.worker "b"] "a" 1 (by decide) (by decide)⟩

/-! ## C4: queue flush and frame layout of the native host -/

/-- C4: messages sent before the native host process is connected are
queued and flushed exactly once, in FIFO order, upon entering the
connected state, as the evaluation of the launch below shows; but the
4-byte little-endian length field of a written frame holds the UTF-16
code-unit count of the JSON payload, not its UTF-8 byte length: for the
JSON text of the one-character string U+00E9 (code points 34, 233, 34)
the field holds 3 while the UTF-8 encoding is 4 bytes, so the frame is
truncated and misframed. -/
theorem nativeMessaging_frame_length_bug :
    (nmLaunch [some nmCfgOk] "chrome-extension://abc/" (fun _ => true)
        (nmSend (nmSend nmInit [34, 233, 34]) [34, 97, 34])).written =
      [mkFrame [34, 233, 34], mkFrame [34, 97, 34]] ∧
    (nmLaunch [some nmCfgOk] "chrome-extension://abc/" (fun _ => true)
        (nmSend (nmSend nmInit [34, 233, 34]) [34, 97, 34])).pending = [] ∧
    (mkFrame [34, 233, 34]).lenField = 3 ∧
    utf8Len [34, 233, 34] = 4 ∧
    (mkFrame [34, 233, 34]).lenField ≠ utf8Len [34, 233, 34] := by
  exact ⟨by decide, by decide, by decide, by decide, by decide⟩

/-! ## C5: a message racing the responder resolution is dropped -/

/-- C5: a message posted after connect stored the port record but before
the service worker resolved is forwarded immediately along the
background-page fallback and, with no background page, silently dropped;
it is never redelivered after the responder becomes resolvable, so the
delivery log of the race trace is empty even though the port ends up
with its responder resolved. -/
theorem portMessage_dropped_before_responder_resolves :
    (portRun (fun _ => none) portRaceTrace).2 = [] ∧
    lookupA (portRun (fun _ => none) portRaceTrace).1 "p1" =
      some { extensionId := "ext", serviceWorker := some 7 } := by
  exact ⟨by decide, by decide⟩

/-! ## C2: exactly one resolution path wins -/

/-- Settled states are absorbing: once the map entry is gone and the
timer is neither scheduled nor pending, no further event changes the
state; in particular a response arriving after the timeout, or the timer
after a response, is a no-op. -/
theorem corrStep_settled (s : CorrState) (e : CorrEvent)
    (h1 : s.pendingPresent = false) (h2 : s.timerActive = false) :
    corrStep s e = s := by
  cases e <;> simp [corrStep, h1, h2]

theorem foldl_corrStep_settled (s : CorrState) (es : List CorrEvent)
    (h1 : s.pendingPresent = false) (h2 : s.timerActive = false) :
    es.foldl corrStep s = s := by
  induction es with
  | nil => rfl
  | cons e rest ih => simp [List.foldl, corrStep_settled s e h1 h2, ih]

/-- C2: exactly one resolution path wins for a pending sendMessage call.
Over any sequence of timer and response events, the promise is never
rejected, and its outcome is fixed by the first settling event alone:
no settling event leaves it pending with the entry stored and the timer
armed; a timeout first resolves it with undefined and removes the
pending entry; a correlated response first resolves it with that
response, removes the entry and cancels the timer, and no later timer
or response event changes the resolution. -/
theorem sendMessage_single_resolution (es : List CorrEvent) :
    (corrRun es).rejected = false ∧
    (match firstSettling es with
     | none => corrRun es = corrInit
     | some none =>
       (corrRun es).resolvedWith = some none ∧
         (corrRun es).pendingPresent = false
     | some (some r) =>
       (corrRun es).resolvedWith = some (some r) ∧
         (corrRun es).pendingPresent = false ∧
         (corrRun es).timerActive = false) := by
  induction es with
  | nil => exact ⟨rfl, rfl⟩
  | cons e rest ih =>
    cases e with
    | timerFire =>
      have hrun : corrRun (CorrEvent.timerFire :: rest) =
          { pendingPresent := false, timerActive := false,
            resolvedWith := some none, rejected := false } := by
        show List.foldl corrStep (corrStep corrInit CorrEvent.timerFire) rest = _
        rw [foldl_corrStep_settled] <;> rfl
      simp [firstSettling, hrun]
    | response r =>
      have hrun : corrRun (CorrEvent.response r :: rest) =
          { pendingPresent := false, timerActive := false,
            resolvedWith := some (some r), rejected := false } := by
        show List.foldl corrStep (corrStep corrInit (CorrEvent.response r)) rest = _
        rw [foldl_corrStep_settled] <;> rfl
      simp [firstSettling, hrun]
    | otherResponse =>
      have hrun : corrRun (CorrEvent.otherResponse :: rest) = corrRun rest := by
        show List.foldl corrStep (corrStep corrInit CorrEvent.otherResponse) rest = _
        rfl
      rw [firstSettling, hrun]
      exact ih

/-! ## C9: disconnect is delivered once and then idempotent -/

/-- A disconnect for a port id absent from the table is a no-op. -/
theorem portDisconnect_none (bgPage : String → Option Nat)
    (s : List (String × PortRec)) (pid : String)
    (h : lookupA s pid = none) :
    portDisconnect bgPage s pid = (s, []) := by
  unfold portDisconnect
  rw [h]

/-- C9: for an open port whose responder side is reachable (the service
worker reference is set, or there is none and a background page exists),
the first disconnect forwards exactly one disconnect notification and
removes the port record, and a second disconnect for the same port id is
a no-op: it finds no record, sends nothing, changes nothing, and raises
no error. -/
theorem portDisconnect_idempotent
    (bgPage : String → Option Nat) (s : List (String × PortRec))
    (pid : String) (p : PortRec)
    (hlook : lookupA s pid = some p)
    (hreach : p.serviceWorker.isSome = true ∨
      (p.serviceWorker = none ∧ (bgPage p.extensionId).isSome = true)) :
    (portDisconnect bgPage s pid).2.length = 1 ∧
    lookupA (portDisconnect bgPage s pid).1 pid = none ∧
    portDisconnect bgPage (portDisconnect bgPage s pid).1 pid =
      ((portDisconnect bgPage s pid).1, []) := by
  have hstate : (portDisconnect bgPage s pid).1 = eraseA s pid := by
    unfold portDisconnect
    rw [hlook]
  have hlg : lookupA (portDisconnect bgPage s pid).1 pid = none := by
    rw [hstate]
    exact lookupA_eraseA_self s pid
  refine ⟨?_, hlg, ?_⟩
  · unfold portDisconnect
    rw [hlook]
    rcases hreach with hsw | ⟨hsw, hbg⟩
    · obtain ⟨sw, hswv⟩ := Option.isSome_iff_exists.mp hsw
      simp [hswv]
    · obtain ⟨bg, hbgv⟩ := Option.isSome_iff_exists.mp hbg
      simp [hsw, hbgv]
  · exact portDisconnect_none bgPage _ pid hlg

theorem portDisconnect_idempotent_witness :
    lookupA [("p1", PortRec.mk "ext" (some 7))] "p1" = some (PortRec.mk "ext" (some 7)) ∧
    ((PortRec.mk "ext" (some 7)).serviceWorker.isSome = true ∨
      ((PortRec.mk "ext" (some 7)).serviceWorker = none ∧
        ((fun _ => none : String → Option Nat) "ext").isSome = true)) ∧
    (portDisconnect (fun _ => none) [("p1", PortRec.mk "ext" (some 7))] "p1").2.length = 1 :=
  ⟨rfl, Or.inl rfl,
    (portDisconnect_idempotent (fun _ => none) [("p1", PortRec.mk "ext" (some 7))] "p1"
      (PortRec.mk "ext" (some 7)) rfl (Or.inl rfl)).1⟩

/-! ## C7: a failed launch never spawns a process -/

/-- Config resolution finds nothing when every search path is unreadable
or holds a structurally invalid descriptor. -/
theorem readConfig_none_of_allInvalid (reads : List (Option RawConfig))
    (h : readsAllInvalid reads = true) :
    readNativeMessagingHostConfig reads = none := by
  induction reads with
  | nil => rfl
  | cons r rest ih =>
    simp only [readsAllInvalid, List.all_cons, Bool.and_eq_true] at h
    obtain ⟨hr, hrest⟩ := h
    cases r with
    | none => exact ih hrest
    | some c =>
      have hc : isValidConfig c = false := by
        simpa [Bool.not_eq_true'] using hr
      simpa [readNativeMessagingHostConfig, hc] using ih hrest

/-- C7: when the descriptor cannot be found or is structurally invalid
at every search location, or the resolved descriptor does not allow the
requesting extension origin, or its declared executable path is not a
regular file, the launch destroys the connection and never spawns a
child process. -/
theorem nativeHost_launch_failure_no_spawn
    (reads : List (Option RawConfig)) (origin : String)
    (isFile : String → Bool) (s : NMState)
    (hs : s.spawned = false)
    (hfail : readsAllInvalid reads = true ∨
      (∃ c, readNativeMessagingHostConfig reads = some c ∧
        (c.allowed_origins.contains origin = false ∨ isFile c.path = false))) :
    (nmLaunch reads origin isFile s).spawned = false ∧
    (nmLaunch reads origin isFile s).destroyed = true := by
  rcases hfail with hall | ⟨c, hc, hbad⟩
  · unfold nmLaunch
    rw [readConfig_none_of_allInvalid reads hall]
    exact ⟨by simp [nmFinishLaunch, nmDestroy, hs], by simp [nmFinishLaunch, nmDestroy]⟩
  · unfold nmLaunch
    rw [hc]
    rcases hbad with hor | hfi
    · have hmem : origin ∉ c.allowed_origins := by simpa using hor
      simp [nmFinishLaunch, hmem, nmDestroy, hs]
    · by_cases hmem : origin ∈ c.allowed_origins
      · simp [nmFinishLaunch, hmem, hfi, nmDestroy, hs]
      · simp [nmFinishLaunch, hmem, nmDestroy, hs]

theorem nativeHost_launch_failure_no_spawn_witness :
    nmInit.spawned = false ∧
    readsAllInvalid [some nmCfgBad, none] = true ∧
    (nmLaunch [some nmCfgBad, none] "chrome-extension://abc/" (fun _ => true) nmInit).spawned
        = false ∧
    (nmLaunch [some nmCfgBad, none] "chrome-extension://abc/" (fun _ => true) nmInit).destroyed
        = true :=
  ⟨rfl, by decide,
    (nativeHost_launch_failure_no_spawn [some nmCfgBad, none] "chrome-extension://abc/"
        (fun _ => true) nmInit rfl (Or.inl (by decide))).1,
    (nativeHost_launch_failure_no_spawn [some nmCfgBad, none] "chrome-extension://abc/"
        (fun _ => true) nmInit rfl (Or.inl (by decide))).2⟩

/-! ## C6: inbound dispatch checks in order -/

/-- C6: onExtensionMessage agrees everywhere with the check chain the
specification describes, in its order: an unknown handler name fails
with the unknown-handler error; a call from a session other than the
session of the router fails when the handler disallows remote calls; a
handler requiring an extension context fails when the caller id resolves
to no registered extension; a handler with a required permission fails
when the caller manifest permission set lacks it; otherwise the awaited
callback result, or the error it threw, is propagated to the caller. -/
theorem onExtensionMessage_matches_spec
    (handlers : List (String × RHandler)) (sameSession : Bool)
    (exts : List RExtension) (callerId : Option String) (name : String) :
    onExtensionMessage handlers sameSession exts callerId name =
      onExtensionMessageSpec handlers sameSession exts callerId name := by
  unfold onExtensionMessage onExtensionMessageSpec
  cases hl : lookupA handlers name with
  | none => rfl
  | some h =>
    cases hss : sameSession <;> cases har : h.allowRemote <;>
      cases hext : callerId.bind (findExtension exts) <;>
        cases hec : h.extensionContext <;>
          cases hp : h.permission <;>
            simp [hss, har, hext, hec, hp]

/-! ## C8: at most one listener per event name and endpoint identity -/

/-- Replacing a bucket with a pairwise-distinct one preserves the
registry invariant. -/
theorem regDistinct_setA (reg : ListenerReg) (eventName : String)
    (b : List EvListener) (hreg : RegDistinct reg)
    (hb : b.Pairwise (fun a c => eventListenerEquals a c = false)) :
    RegDistinct (setA reg eventName b) := by
  intro p hp
  rcases mem_setA reg eventName b p hp with h | h
  · rw [h]; exact hb
  · exact hreg p h

/-- Adding a listener already present under eventListenerEquals leaves
the registry unchanged. -/
theorem addListener_mem_noop (exts : List String) (reg : ListenerReg) (l : EvListener)
    (extensionId eventName : String)
    (hc : exts.contains extensionId = true)
    (b : List EvListener)
    (hlook : lookupA reg eventName = some b)
    (hmem : b.any (fun x => eventListenerEquals l x) = true) :
    addListener exts reg l extensionId eventName = Except.ok reg := by
  unfold addListener
  rw [if_pos hc]
  simp only [hlook]
  simp [hmem]

/-- C8: the registry holds at most one listener per pair of event name
and endpoint identity.  Starting from a registry satisfying the
invariant, a successful addListener preserves it, and calling
addListener again with an equal listener for the same event name
returns the registry unchanged: duplicate registration is a no-op. -/
theorem addListener_duplicate_noop
    (exts : List String) (reg : ListenerReg) (l : EvListener)
    (extensionId eventName : String) (reg' : ListenerReg)
    (hreg : RegDistinct reg)
    (hok : addListener exts reg l extensionId eventName = Except.ok reg') :
    RegDistinct reg' ∧
    addListener exts reg' l extensionId eventName = Except.ok reg' := by
  have hcb : exts.contains extensionId = true := by
    by_cases hm : extensionId ∈ exts
    · simpa using hm
    · exfalso
      unfold addListener at hok
      rw [if_neg (by simpa using hm)] at hok
      cases hok
  unfold addListener at hok
  rw [if_pos hcb] at hok
  cases hlook : lookupA reg eventName with
  | some b0 =>
    simp only [hlook] at hok
    by_cases hdup : b0.any (fun x => eventListenerEquals l x) = true
    · simp only [Option.getD_some, hdup, if_true] at hok
      have hr : reg' = reg := by
        cases hok
        rfl
      subst hr
      exact ⟨hreg, addListener_mem_noop exts reg' l extensionId eventName hcb b0 hlook hdup⟩
    · have hdupf : b0.any (fun x => eventListenerEquals l x) = false := by
        simpa [Bool.not_eq_true] using hdup
      simp only [Option.getD_some, hdupf] at hok
      have hr : reg' = setA reg eventName (b0 ++ [l]) := by
        cases hok
        rfl
      have hb0 : b0.Pairwise (fun a c => eventListenerEquals a c = false) := by
        rcases lookupA_mem reg eventName b0 hlook with ⟨k, hk⟩
        exact hreg (k, b0) hk
      have hnol : ∀ a ∈ b0, eventListenerEquals a l = false := by
        intro a ha
        by_cases he : eventListenerEquals a l = true
        · exfalso
          have := eventListenerEquals_symm a l he
          have hany : b0.any (fun x => eventListenerEquals l x) = true :=
            List.any_eq_true.mpr ⟨a, ha, this⟩
          rw [hany] at hdupf
          cases hdupf
        · simpa [Bool.not_eq_true] using he
      have hpair : (b0 ++ [l]).Pairwise (fun a c => eventListenerEquals a c = false) := by
        rw [List.pairwise_append]
        refine ⟨hb0, List.pairwise_singleton _ _, ?_⟩
        intro a ha c hc
        have hcl : c = l := by simpa using hc
        subst hcl
        exact hnol a ha
      subst hr
      refine ⟨regDistinct_setA reg eventName (b0 ++ [l]) hreg hpair, ?_⟩
      refine addListener_mem_noop exts _ l extensionId eventName hcb (b0 ++ [l])
        (lookupA_setA_self reg eventName (b0 ++ [l])) ?_
      refine List.any_eq_true.mpr ⟨l, ?_, eventListenerEquals_refl l⟩
      simp
  | none =>
    simp only [hlook, Option.getD_some, lookupA_setA_self] at hok
    simp only [List.any_nil, Bool.false_eq_true, if_false, List.nil_append] at hok
    have hr : reg' = setA (setA reg eventName []) eventName [l] := by
      cases hok
      rfl
    subst hr
    have hd1 : RegDistinct (setA reg eventName []) :=
      regDistinct_setA reg eventName [] hreg (List.Pairwise.nil)
    refine ⟨regDistinct_setA _ eventName [l] hd1 (List.pairwise_singleton _ _), ?_⟩
    refine addListener_mem_noop exts _ l extensionId eventName hcb [l]
      (lookupA_setA_self _ eventName [l]) ?_
    simp [eventListenerEquals_refl]

theorem addListener_duplicate_noop_witness :
    RegDistinct ([] : ListenerReg) ∧
    addListener ["a"] [] (EvListener.worker "a") "a" "ev" =
      Except.ok [("ev", [EvListener.worker "a"])] ∧
    (RegDistinct [("ev", [EvListener.worker "a"])] ∧
      addListener ["a"] [("ev", [EvListener.worker "a"])] (EvListener.worker "a") "a" "ev" =
        Except.ok [("ev", [EvListener.worker "a"])]) :=
  ⟨fun p hp => absurd hp (List.not_mem_nil p), rfl,
    addListener_duplicate_noop ["a"] [] (EvListener.worker "a") "a" "ev"
      [("ev", [EvListener.worker "a"])] (fun p hp => absurd hp (List.not_mem_nil p)) rfl⟩

/-! ## C3: per-instance listener installation happens at most once -/

/-- Strengthened induction for the tracker: processing any suffix of a
trace with no revived instance ids, from a state whose installation log
counts every id at most once and in which every installed id is either
still registered or never starts again, keeps every count at most one. -/
theorem swRun_installs_aux (getWorker : Nat → Option SWInfo) :
    ∀ (es : List SWEventT) (s : SWRegState),
      noRevival es = true →
      (∀ v, s.installs.count v ≤ 1) →
      (∀ v, 1 ≤ s.installs.count v →
        v ∈ s.registered ∨ ∀ f ∈ es, ¬(f.versionId = v ∧ f.status = SWStatus.starting)) →
      ∀ v, (es.foldl (swStep getWorker) s).installs.count v ≤ 1 := by
  intro es
  induction es with
  | nil =>
    intro s _ h2 _ v
    exact h2 v
  | cons e rest ih =>
    intro s hnr h2 h3 v
    have hnr2 : noRevival rest = true := by
      simp only [noRevival, Bool.and_eq_true] at hnr
      exact hnr.2
    show (rest.foldl (swStep getWorker) (swStep getWorker s e)).installs.count v ≤ 1
    cases hst : e.status with
    | stopped =>
      have hstep : swStep getWorker s e =
          { s with registered := s.registered.filter (fun w => w ≠ e.versionId) } := by
        unfold swStep
        rw [hst]
      rw [hstep]
      refine ih { s with registered := s.registered.filter (fun w => w ≠ e.versionId) }
        hnr2 (fun w => h2 w) ?_ v
      intro w hw
      rcases h3 w hw with hin | hns
      · by_cases hweq : w = e.versionId
        · right
          subst hweq
          simp only [noRevival, hst, Bool.and_eq_true, List.all_eq_true] at hnr
          intro f hf hcond
          have := hnr.1 f hf
          simp only [hcond.1, hcond.2, Bool.and_self, Bool.not_true] at this
          cases this
        · left
          simp only [List.mem_filter, decide_eq_true_eq]
          exact ⟨hin, hweq⟩
      · right
        intro f hf
        exact hns f (List.mem_cons_of_mem _ hf)
    | running =>
      have hstep : swStep getWorker s e = s := by
        unfold swStep
        rw [hst]
      rw [hstep]
      refine ih _ hnr2 h2 ?_ v
      intro w hw
      rcases h3 w hw with hin | hns
      · exact Or.inl hin
      · exact Or.inr (fun f hf => hns f (List.mem_cons_of_mem _ hf))
    | starting =>
      by_cases hvreg : e.versionId ∈ s.registered
      · have hstep : swStep getWorker s e = s := by
          unfold swStep
          rw [hst]
          simp [hvreg]
        rw [hstep]
        refine ih _ hnr2 h2 ?_ v
        intro w hw
        rcases h3 w hw with hin | hns
        · exact Or.inl hin
        · exact Or.inr (fun f hf => hns f (List.mem_cons_of_mem _ hf))
      · cases hscope : workerScopeOk getWorker e.versionId with
        | false =>
          have hstep : swStep getWorker s e = s := by
            unfold swStep
            rw [hst]
            simp [hvreg, hscope]
          rw [hstep]
          refine ih _ hnr2 h2 ?_ v
          intro w hw
          rcases h3 w hw with hin | hns
          · exact Or.inl hin
          · exact Or.inr (fun f hf => hns f (List.mem_cons_of_mem _ hf))
        | true =>
          have hstep : swStep getWorker s e =
              { registered := e.versionId :: s.registered,
                installs := s.installs ++ [e.versionId] } := by
            unfold swStep
            rw [hst]
            simp [hvreg, hscope]
          have hzero : s.installs.count e.versionId = 0 := by
            by_contra hnz
            have hge : 1 ≤ s.installs.count e.versionId := by omega
            rcases h3 e.versionId hge with hin | hns
            · exact hvreg hin
            · exact hns e (List.mem_cons_self _ _) ⟨rfl, hst⟩
          rw [hstep]
          refine ih _ hnr2 ?_ ?_ v
          · intro w
            by_cases hweq : w = e.versionId
            · subst hweq
              simp [List.count_append, List.count_cons, hzero]
            · have : (e.versionId :: ([] : List Nat)).count w = 0 := by
                simp [List.count_cons, hweq]
              simp only [List.count_append, this]
              simpa using h2 w
          · intro w hw
            by_cases hweq : w = e.versionId
            · subst hweq
              exact Or.inl (List.mem_cons_self _ _)
            · have hwold : 1 ≤ s.installs.count w := by
                have : (e.versionId :: ([] : List Nat)).count w = 0 := by
                  simp [List.count_cons, hweq]
                simp only [List.count_append, this] at hw
                omega
              rcases h3 w hwold with hin | hns
              · exact Or.inl (List.mem_cons_of_mem _ hin)
              · exact Or.inr (fun f hf => hns f (List.mem_cons_of_mem _ hf))

/-- C3: per-worker IPC listeners are installed at most once per worker
instance (version) id over any status trace in which a stopped id never
starts again; a stopped transition removes the registration of that id,
so a later instance with a fresh id installs independently; and on the
restart trace (instance 1 starting, running, stopped, then instance 2
starting, running) an event delivered over the IPC of the live instance
2 fires the registered listener exactly once: instance 2 installed
exactly one listener batch. -/
theorem serviceWorkerListeners_install_once :
    (∀ (getWorker : Nat → Option SWInfo) (es : List SWEventT),
      noRevival es = true →
      ∀ v, (swRun getWorker es).installs.count v ≤ 1) ∧
    (∀ (getWorker : Nat → Option SWInfo) (s : SWRegState) (e : SWEventT),
      e.status = SWStatus.stopped →
      e.versionId ∉ (swStep getWorker s e).registered) ∧
    deliveryCount (swRun swAllExtensionScopes swRestartTrace) 2 = 1 := by
  refine ⟨?_, ?_, by decide⟩
  · intro getWorker es hnr v
    refine swRun_installs_aux getWorker es { registered := [], installs := [] } hnr ?_ ?_ v
    · intro w
      simp
    · intro w hw
      simp at hw
  · intro getWorker s e hst
    have hstep : swStep getWorker s e =
        { s with registered := s.registered.filter (fun w => w ≠ e.versionId) } := by
      unfold swStep
      rw [hst]
    rw [hstep]
    simp [List.mem_filter]

theorem serviceWorkerListeners_install_once_witness :
    noRevival swRestartTrace = true ∧
    (swRun swAllExtensionScopes swRestartTrace).installs.count 1 ≤ 1 ∧
    SWEventT.status { versionId := 5, status := SWStatus.stopped } = SWStatus.stopped ∧
    5 ∉ (swStep swAllExtensionScopes { registered := [5], installs := [5] }
          { versionId := 5, status := SWStatus.stopped }).registered :=
  ⟨by decide,
    serviceWorkerListeners_install_once.1 swAllExtensionScopes swRestartTrace (by decide) 1,
    rfl,
    serviceWorkerListeners_install_once.2.1 swAllExtensionScopes
      { registered := [5], installs := [5] }
      { versionId := 5, status := SWStatus.stopped } rfl⟩

end ECE
